import Mathlib

/-!
Verification development for a small calculation service written in Rust
(src/src/types.rs and src/src/main.rs). The core is a rule engine: an input
record of six typed fields is classified into one of three categories by
comparing its boolean triple against a per-variant rule table, and a numeric
value is then computed by a formula selected on (variant, category).

Modelling conventions:
- Rust f64 values are modelled as exact rationals (Rat). Every numeric claim
  settled here concerns formula selection and values that are exactly
  representable, so the idealisation does not affect any verdict.
- Rust i32 values are modelled as Int together with the explicit 32-bit
  signed range check performed at the deserialization boundary.
- The HashMap holding the category rule tables is modelled as a function
  from Substitution to an optional association list of entries; the list
  order is a modelling choice (Rust HashMap iteration order is unspecified),
  and the lemma scanEntries_perm below shows the classification result is
  invariant under any reordering of the actual (injective) tables.
-/

namespace Assignment

/-- A boolean triple (expectA, expectB, expectC) used as the expectation in
the category rule tables, compared against (input.a, input.b, input.c). -/
abbrev Triple := Bool × Bool × Bool

/-- The input record from src/src/types.rs: three booleans, one float
(modelled as Rat) and two 32-bit integers (modelled as Int; the range is a
deserialization-time constraint, see Input.from_str below). -/
structure Input where
  a : Bool
  b : Bool
  c : Bool
  d : Rat
  e : Int
  f : Int
deriving DecidableEq

/-- The closed category enumeration H from src/src/types.rs. -/
inductive HValue
  | M
  | P
  | T
deriving DecidableEq

/-- The output record: a category tag and the computed value. -/
structure Output where
  h : HValue
  k : Rat
deriving DecidableEq

/-- The closed variant enumeration from src/src/types.rs. -/
inductive Substitution
  | Base
  | Custom1
  | Custom2
deriving DecidableEq

/-- The Base rule table as built in get_h_value, in its declared insertion
order M, P, T. -/
def baseEntries : List (HValue × Triple) :=
  [(.M, (true, true, false)), (.P, (true, true, true)), (.T, (false, true, true))]

/-- The Custom2 rule table: a clone of the Base table with the T and M
entries overridden, as built in get_h_value. -/
def custom2Entries : List (HValue × Triple) :=
  [(.M, (true, false, true)), (.P, (true, true, true)), (.T, (true, true, false))]

/-- The content of the HVALMAP OnceCell after its one-time construction:
explicit tables for Custom2 and Base only; Custom1 has no entry. -/
def hvalMapBuilt : Substitution → Option (List (HValue × Triple))
  | .Base => some baseEntries
  | .Custom2 => some custom2Entries
  | .Custom1 => none

/-- The scan loop of get_h_value: the first category in the entry list whose
expected triple equals (input.a, input.b, input.c). -/
def scanEntries (entries : List (HValue × Triple)) (i : Input) : Option HValue :=
  match entries with
  | [] => none
  | (h, expectation) :: rest =>
      if expectation = (i.a, i.b, i.c) then some h else scanEntries rest i

/-- Substitution.get_h_value from src/src/types.rs: look up the table for
the variant, falling back to the Base table when the variant has none, then
scan for the first matching triple. -/
def Substitution.get_h_value (s : Substitution) (i : Input) : Option HValue :=
  match (hvalMapBuilt s).or (hvalMapBuilt .Base) with
  | none => none
  | some entries => scanEntries entries i

/-- Substitution.get_k_value from src/src/types.rs: formula dispatch on
(variant, category), variant-specific overrides first, written exactly in
the order of the Rust match arms. -/
def Substitution.get_k_value (s : Substitution) (i : Input) (value_h : HValue) : Rat :=
  let d := i.d
  let e : Rat := (i.e : Rat)
  let f : Rat := (i.f : Rat)
  match s, value_h with
  | .Custom2, .M => f + d + d * e / 100
  | .Custom1, .P => 2 * d + d * e / 100
  | _, .M => d + d * e / 10
  | _, .P => d + d * (e - f) / 25.5
  | _, .T => d - d * f / 30

/-- Substitution.get_output from src/src/types.rs: classify, and only when a
category was found, compute the value; the question-mark operator on the
classify result propagates the none outcome. -/
def Substitution.get_output (s : Substitution) (i : Input) : Option Output :=
  match s.get_h_value i with
  | none => none
  | some h => some { h := h, k := s.get_k_value i h }

/-- Modelled from the spec: the text-level YAML parser used by
Input::from_str is the external serde_yaml crate, which is not part of this
repository. A successfully parsed YAML mapping is modelled as an association
list from key to scalar value; the scalar kinds relevant to the six fields
are booleans, integers and floats (floats as exact rationals). -/
inductive YVal
  | vbool (b : Bool)
  | vint (n : Int)
  | vfloat (q : Rat)
deriving DecidableEq

/-- Modelled from the spec: lookup of a field key in the parsed mapping.
All six field names are single letters, so keys are modelled as characters;
serde field-name matching is exact, so lookup compares keys exactly. -/
def lookupKey (fields : List (Char × YVal)) (key : Char) : Option YVal :=
  match fields with
  | [] => none
  | (k, v) :: rest => if k = key then some v else lookupKey rest key

/-- Conversion of a looked-up scalar to a boolean field (fields a, b, c). -/
def asBool : Option YVal → Option Bool
  | some (.vbool b) => some b
  | _ => none

/-- Conversion of a looked-up scalar to the float field d; a YAML integer
scalar widens to a float as serde does for an f64 field. -/
def asFloat : Option YVal → Option Rat
  | some (.vfloat q) => some q
  | some (.vint n) => some (n : Rat)
  | _ => none

/-- Conversion of a looked-up scalar to a 32-bit integer field (fields e
and f): an integer scalar outside the signed 32-bit range fails the serde
conversion to i32. -/
def asI32 : Option YVal → Option Int
  | some (.vint n) => if -2147483648 ≤ n ∧ n < 2147483648 then some n else none
  | _ => none

/-- Modelled from the spec: Input::from_str delegates to serde_yaml
deserialization of the Input struct. The struct declares
serde(rename_all = UPPERCASE) in src/src/types.rs, so the six required
field names are exactly the uppercase letters A to F; serde matches
renamed field names exactly (case-sensitively) and, with no
deny_unknown_fields attribute, ignores unknown keys. Each required field is
extracted and converted; any missing key or failed conversion makes the
whole parse return none, producing no partial record. -/
def Input.from_str (fields : List (Char × YVal)) : Option Input := do
  let a ← asBool (lookupKey fields 'A')
  let b ← asBool (lookupKey fields 'B')
  let c ← asBool (lookupKey fields 'C')
  let d ← asFloat (lookupKey fields 'D')
  let e ← asI32 (lookupKey fields 'E')
  let f ← asI32 (lookupKey fields 'F')
  some { a := a, b := b, c := c, d := d, e := e, f := f }

/-- Success characterisation of the modelled parse: it returns a record
exactly when all six conversions succeed on the looked-up values. -/
theorem from_str_eq_some_iff (fields : List (Char × YVal)) (r : Input) :
    Input.from_str fields = some r ↔
      asBool (lookupKey fields 'A') = some r.a ∧
      asBool (lookupKey fields 'B') = some r.b ∧
      asBool (lookupKey fields 'C') = some r.c ∧
      asFloat (lookupKey fields 'D') = some r.d ∧
      asI32 (lookupKey fields 'E') = some r.e ∧
      asI32 (lookupKey fields 'F') = some r.f := by
  cases hA : asBool (lookupKey fields 'A') <;>
    cases hB : asBool (lookupKey fields 'B') <;>
      cases hC : asBool (lookupKey fields 'C') <;>
        cases hD : asFloat (lookupKey fields 'D') <;>
          cases hE : asI32 (lookupKey fields 'E') <;>
            cases hF : asI32 (lookupKey fields 'F') <;>
              simp [Input.from_str, hA, hB, hC, hD, hE, hF, Option.bind]
  constructor
  · rintro rfl
    simp
  · rintro ⟨h1, h2, h3, h4, h5, h6⟩
    cases r
    simp_all

/-- Failure characterisation of the modelled parse: it returns none exactly
when at least one of the six conversions fails. -/
theorem from_str_eq_none_iff (fields : List (Char × YVal)) :
    Input.from_str fields = none ↔
      asBool (lookupKey fields 'A') = none ∨
      asBool (lookupKey fields 'B') = none ∨
      asBool (lookupKey fields 'C') = none ∨
      asFloat (lookupKey fields 'D') = none ∨
      asI32 (lookupKey fields 'E') = none ∨
      asI32 (lookupKey fields 'F') = none := by
  cases hA : asBool (lookupKey fields 'A') <;>
    cases hB : asBool (lookupKey fields 'B') <;>
      cases hC : asBool (lookupKey fields 'C') <;>
        cases hD : asFloat (lookupKey fields 'D') <;>
          cases hE : asI32 (lookupKey fields 'E') <;>
            cases hF : asI32 (lookupKey fields 'F') <;>
              simp [Input.from_str, hA, hB, hC, hD, hE, hF, Option.bind]

/-- C1: get_k_value implements exactly the five-row dispatch table — Custom2/M
uses f + d + d*e/100, Custom1/P uses 2*d + d*e/100, any other variant uses
d + d*e/10 for M, d + d*(e-f)/25.5 for P and d - d*f/30 for T — with the
variant-specific overrides taking precedence, and it is a total function on
the closed enumerations (all nine (variant, category) pairs are covered by
the equations below). In particular the value for Base on
(d, e, f) = (30, 10, 7) with M is 60 and for Custom2 it is 40. -/
theorem C1_get_k_value_table :
    (∀ i : Input,
      Substitution.Custom2.get_k_value i .M = (i.f : Rat) + i.d + i.d * (i.e : Rat) / 100 ∧
      Substitution.Custom1.get_k_value i .P = 2 * i.d + i.d * (i.e : Rat) / 100 ∧
      Substitution.Base.get_k_value i .M = i.d + i.d * (i.e : Rat) / 10 ∧
      Substitution.Custom1.get_k_value i .M = i.d + i.d * (i.e : Rat) / 10 ∧
      Substitution.Base.get_k_value i .P = i.d + i.d * ((i.e : Rat) - (i.f : Rat)) / 25.5 ∧
      Substitution.Custom2.get_k_value i .P = i.d + i.d * ((i.e : Rat) - (i.f : Rat)) / 25.5 ∧
      (∀ s : Substitution, s.get_k_value i .T = i.d - i.d * (i.f : Rat) / 30)) ∧
    Substitution.Base.get_k_value ⟨true, true, false, 30, 10, 7⟩ .M = 60 ∧
    Substitution.Custom2.get_k_value ⟨true, true, false, 30, 10, 7⟩ .M = 40 := by
  refine ⟨fun i => ⟨rfl, rfl, rfl, rfl, rfl, rfl, fun s => ?_⟩, ?_, ?_⟩
  · cases s <;> rfl
  · norm_num [Substitution.get_k_value]
  · norm_num [Substitution.get_k_value]

/-- C2: classification under the Base variant returns M exactly on the
boolean triple (true, true, false), P exactly on (true, true, true), T
exactly on (false, true, true), and none on every other triple — a defined
outcome, not an error. -/
theorem C2_classify_base (i : Input) :
    (Substitution.Base.get_h_value i = some .M ↔ (i.a, i.b, i.c) = (true, true, false)) ∧
    (Substitution.Base.get_h_value i = some .P ↔ (i.a, i.b, i.c) = (true, true, true)) ∧
    (Substitution.Base.get_h_value i = some .T ↔ (i.a, i.b, i.c) = (false, true, true)) ∧
    (Substitution.Base.get_h_value i = none ↔
      (i.a, i.b, i.c) ≠ (true, true, false) ∧ (i.a, i.b, i.c) ≠ (true, true, true) ∧
        (i.a, i.b, i.c) ≠ (false, true, true)) := by
  obtain ⟨a, b, c, d, e, f⟩ := i
  cases a <;> cases b <;> cases c <;>
    simp [Substitution.get_h_value, hvalMapBuilt, baseEntries, scanEntries]

/-- C2 witness: at the concrete record (true, true, false, 30, 10, 7) the
Base classification is M, and at (true, false, true, 30, 10, 7) it is none. -/
theorem C2_classify_base_witness :
    Substitution.Base.get_h_value ⟨true, true, false, 30, 10, 7⟩ = some .M ∧
    Substitution.Base.get_h_value ⟨true, false, true, 30, 10, 7⟩ = none := by
  have h1 := (C2_classify_base ⟨true, true, false, 30, 10, 7⟩).1
  have h2 := (C2_classify_base ⟨true, false, true, 30, 10, 7⟩).2.2.2
  exact ⟨h1.mpr rfl, h2.mpr (by decide)⟩

/-- C3: classification under Custom2 uses the Base table with T overridden
to (true, true, false) and M overridden to (true, false, true); consequently
the triple (true, true, false) classifies as T under Custom2 while the same
triple classifies as M under Base. -/
theorem C3_classify_custom2 (i : Input) :
    (Substitution.Custom2.get_h_value i = some .M ↔ (i.a, i.b, i.c) = (true, false, true)) ∧
    (Substitution.Custom2.get_h_value i = some .P ↔ (i.a, i.b, i.c) = (true, true, true)) ∧
    (Substitution.Custom2.get_h_value i = some .T ↔ (i.a, i.b, i.c) = (true, true, false)) ∧
    (Substitution.Custom2.get_h_value i = none ↔
      (i.a, i.b, i.c) ≠ (true, false, true) ∧ (i.a, i.b, i.c) ≠ (true, true, true) ∧
        (i.a, i.b, i.c) ≠ (true, true, false)) ∧
    (Substitution.Base.get_h_value i = some .M ↔ (i.a, i.b, i.c) = (true, true, false)) := by
  obtain ⟨a, b, c, d, e, f⟩ := i
  cases a <;> cases b <;> cases c <;>
    simp [Substitution.get_h_value, hvalMapBuilt, baseEntries, custom2Entries, scanEntries]

/-- C3 witness: at the concrete record (true, true, false, 30, 10, 7) the
Custom2 classification is T while the Base classification is M. -/
theorem C3_classify_custom2_witness :
    Substitution.Custom2.get_h_value ⟨true, true, false, 30, 10, 7⟩ = some .T ∧
    Substitution.Base.get_h_value ⟨true, true, false, 30, 10, 7⟩ = some .M := by
  have h := C3_classify_custom2 ⟨true, true, false, 30, 10, 7⟩
  exact ⟨h.2.2.1.mpr rfl, h.2.2.2.2.mpr rfl⟩

/-- C4: get_output is the composition of classification and value
computation — it returns none exactly when get_h_value returns none, and
when get_h_value returns some h it returns the output record with category
h and value get_k_value at h. -/
theorem C4_evaluate_composition (s : Substitution) (i : Input) :
    (s.get_output i = none ↔ s.get_h_value i = none) ∧
    ∀ h : HValue, s.get_h_value i = some h →
      s.get_output i = some { h := h, k := s.get_k_value i h } := by
  constructor
  · cases hh : s.get_h_value i <;> simp [Substitution.get_output, hh]
  · intro h hh
    simp [Substitution.get_output, hh]

/-- C4 witness: at Base on (true, true, false, 30, 10, 7) classification
yields M and get_output yields the record with category M and the computed
value. -/
theorem C4_evaluate_composition_witness :
    Substitution.Base.get_h_value ⟨true, true, false, 30, 10, 7⟩ = some .M ∧
    Substitution.Base.get_output ⟨true, true, false, 30, 10, 7⟩ =
      some { h := .M, k := Substitution.Base.get_k_value ⟨true, true, false, 30, 10, 7⟩ .M } :=
  ⟨rfl, (C4_evaluate_composition Substitution.Base ⟨true, true, false, 30, 10, 7⟩).2 .M rfl⟩

/-- C5: the Custom1 variant has no rule-table entry of its own in HVALMAP,
so the fallback to the Base table makes its classification agree with Base
on every input. -/
theorem C5_custom1_inherits_base (i : Input) :
    Substitution.Custom1.get_h_value i = Substitution.Base.get_h_value i := rfl

/-- C5 witness: concrete agreement of Custom1 and Base classification. -/
theorem C5_custom1_inherits_base_witness :
    Substitution.Custom1.get_h_value ⟨true, true, true, 30, 10, 7⟩ =
      Substitution.Base.get_h_value ⟨true, true, true, 30, 10, 7⟩ :=
  C5_custom1_inherits_base ⟨true, true, true, 30, 10, 7⟩

/-- Range guarantee of the i32 conversion: a successful asI32 result lies
in the signed 32-bit range. -/
theorem asI32_range (o : Option YVal) (n : Int) (h : asI32 o = some n) :
    -2147483648 ≤ n ∧ n < 2147483648 := by
  match o with
  | none => simp [asI32] at h
  | some (.vbool b) => simp [asI32] at h
  | some (.vfloat q) => simp [asI32] at h
  | some (.vint m) =>
    by_cases hc : -2147483648 ≤ m ∧ m < 2147483648
    · simp [asI32, hc] at h
      omega
    · simp [asI32, hc] at h

/-- C6: the modelled parse is all-or-nothing: when the payload carries all
six required keys with correctly typed and convertible values the parse
succeeds and the record fields equal exactly the written values; when any
required key is missing, or any conversion fails, the parse returns none,
producing no partial record. -/
theorem C6_parse_all_or_nothing :
    (∀ (fields : List (Char × YVal)) (a b c : Bool) (d : Rat) (e f : Int),
      lookupKey fields 'A' = some (.vbool a) →
      lookupKey fields 'B' = some (.vbool b) →
      lookupKey fields 'C' = some (.vbool c) →
      lookupKey fields 'D' = some (.vfloat d) →
      lookupKey fields 'E' = some (.vint e) →
      lookupKey fields 'F' = some (.vint f) →
      -2147483648 ≤ e → e < 2147483648 →
      -2147483648 ≤ f → f < 2147483648 →
      Input.from_str fields = some ⟨a, b, c, d, e, f⟩) ∧
    (∀ (fields : List (Char × YVal)) (k : Char),
      k ∈ ['A', 'B', 'C', 'D', 'E', 'F'] →
      lookupKey fields k = none →
      Input.from_str fields = none) ∧
    (∀ fields : List (Char × YVal),
      asBool (lookupKey fields 'A') = none ∨
      asBool (lookupKey fields 'B') = none ∨
      asBool (lookupKey fields 'C') = none ∨
      asFloat (lookupKey fields 'D') = none ∨
      asI32 (lookupKey fields 'E') = none ∨
      asI32 (lookupKey fields 'F') = none →
      Input.from_str fields = none) := by
  refine ⟨?_, ?_, fun fields h => (from_str_eq_none_iff fields).mpr h⟩
  · intro fields a b c d e f hA hB hC hD hE hF he1 he2 hf1 hf2
    refine (from_str_eq_some_iff fields ⟨a, b, c, d, e, f⟩).mpr ?_
    rw [hA, hB, hC, hD, hE, hF]
    simp [asBool, asFloat, asI32, he1, he2, hf1, hf2]
  · intro fields k hk hnone
    refine (from_str_eq_none_iff fields).mpr ?_
    simp only [List.mem_cons, List.not_mem_nil, or_false] at hk
    rcases hk with rfl | rfl | rfl | rfl | rfl | rfl
    · exact Or.inl (by rw [hnone]; rfl)
    · exact Or.inr (Or.inl (by rw [hnone]; rfl))
    · exact Or.inr (Or.inr (Or.inl (by rw [hnone]; rfl)))
    · exact Or.inr (Or.inr (Or.inr (Or.inl (by rw [hnone]; rfl))))
    · exact Or.inr (Or.inr (Or.inr (Or.inr (Or.inl (by rw [hnone]; rfl)))))
    · exact Or.inr (Or.inr (Or.inr (Or.inr (Or.inr (by rw [hnone]; rfl)))))

/-- C6 witness: the payload of the repository test, spelled with uppercase
keys and the values true, true, false, 33.3, 10, 7, parses to exactly that
record; removing the F key makes the parse fail. -/
theorem C6_parse_all_or_nothing_witness :
    Input.from_str
        [('A', .vbool true), ('B', .vbool true), ('C', .vbool false),
         ('D', .vfloat 33.3), ('E', .vint 10), ('F', .vint 7)] =
      some ⟨true, true, false, 33.3, 10, 7⟩ ∧
    Input.from_str
        [('A', .vbool true), ('B', .vbool true), ('C', .vbool false),
         ('D', .vfloat 33.3), ('E', .vint 10)] = none := by
  constructor
  · exact C6_parse_all_or_nothing.1 _ true true false 33.3 10 7 rfl rfl rfl rfl rfl rfl
      (by norm_num) (by norm_num) (by norm_num) (by norm_num)
  · exact C6_parse_all_or_nothing.2.1 _ 'F' (by simp) rfl

/-- C7 counterexample payload: the repository-test values with all six keys
spelled in lowercase. -/
def lowerFields : List (Char × YVal) :=
  [('a', .vbool true), ('b', .vbool true), ('c', .vbool false),
   ('d', .vfloat 30), ('e', .vint 10), ('f', .vint 7)]

/-- C7 counterexample payload: the same values with uppercase keys. -/
def upperFields : List (Char × YVal) :=
  [('A', .vbool true), ('B', .vbool true), ('C', .vbool false),
   ('D', .vfloat 30), ('E', .vint 10), ('F', .vint 7)]

/-- C7 counterexample: the claim that field names are accepted
case-insensitively fails — the lowercase spelling of a payload that parses
fine in uppercase does not parse at all, because the serde rename makes the
required key names exactly the uppercase letters and matching is exact. -/
theorem C7_counterexample_lowercase_fails :
    Input.from_str lowerFields = none ∧
    Input.from_str upperFields = some ⟨true, true, false, 30, 10, 7⟩ := by
  constructor <;> rfl

/-- C7 amended: field-name matching in the modelled parse is exact and
case-sensitive: for every value assignment (with the integer fields in the
32-bit range), the lowercase-keyed payload parses to none while the
corresponding uppercase-keyed payload parses to the record. -/
theorem C7_amended_case_sensitive (a b c : Bool) (d : Rat) (e f : Int)
    (he1 : -2147483648 ≤ e) (he2 : e < 2147483648)
    (hf1 : -2147483648 ≤ f) (hf2 : f < 2147483648) :
    Input.from_str
        [('a', .vbool a), ('b', .vbool b), ('c', .vbool c),
         ('d', .vfloat d), ('e', .vint e), ('f', .vint f)] = none ∧
    Input.from_str
        [('A', .vbool a), ('B', .vbool b), ('C', .vbool c),
         ('D', .vfloat d), ('E', .vint e), ('F', .vint f)] = some ⟨a, b, c, d, e, f⟩ := by
  constructor
  · rfl
  · refine (from_str_eq_some_iff _ _).mpr ?_
    refine ⟨rfl, rfl, rfl, rfl, ?_, ?_⟩
    · show asI32 (some (.vint e)) = some e
      simp [asI32, he1, he2]
    · show asI32 (some (.vint f)) = some f
      simp [asI32, hf1, hf2]

/-- C7 amended witness: concrete instance with values true, true, true,
12, 5, 6. -/
theorem C7_amended_case_sensitive_witness :
    Input.from_str
        [('a', .vbool true), ('b', .vbool true), ('c', .vbool true),
         ('d', .vfloat 12), ('e', .vint 5), ('f', .vint 6)] = none ∧
    Input.from_str
        [('A', .vbool true), ('B', .vbool true), ('C', .vbool true),
         ('D', .vfloat 12), ('E', .vint 5), ('F', .vint 6)] =
      some ⟨true, true, true, 12, 5, 6⟩ :=
  C7_amended_case_sensitive true true true 12 5 6
    (by norm_num) (by norm_num) (by norm_num) (by norm_num)

/-- C10: the integer fields e and f are restricted to the signed 32-bit
range: a payload whose E or F value is an integer outside
[-2147483648, 2147483647] fails to parse even though it is a well-formed
integer, and every successfully parsed record has e and f inside the
range. -/
theorem C10_i32_range :
    (∀ (fields : List (Char × YVal)) (n : Int),
      (lookupKey fields 'E' = some (.vint n) ∨ lookupKey fields 'F' = some (.vint n)) →
      n < -2147483648 ∨ 2147483647 < n →
      Input.from_str fields = none) ∧
    (∀ (fields : List (Char × YVal)) (r : Input),
      Input.from_str fields = some r →
      -2147483648 ≤ r.e ∧ r.e ≤ 2147483647 ∧ -2147483648 ≤ r.f ∧ r.f ≤ 2147483647) := by
  constructor
  · intro fields n hlk hout
    refine (from_str_eq_none_iff fields).mpr ?_
    have hnone : asI32 (some (YVal.vint n)) = none := by
      simp only [asI32]
      rw [if_neg]
      omega
    rcases hlk with h | h
    · exact Or.inr (Or.inr (Or.inr (Or.inr (Or.inl (by rw [h, hnone])))))
    · exact Or.inr (Or.inr (Or.inr (Or.inr (Or.inr (by rw [h, hnone])))))
  · intro fields r hr
    obtain ⟨-, -, -, -, hE, hF⟩ := (from_str_eq_some_iff fields r).mp hr
    have h1 := asI32_range _ _ hE
    have h2 := asI32_range _ _ hF
    omega

/-- C10 witness payload: well-typed except that E is 2147483648, one past
the i32 maximum. -/
def bigEFields : List (Char × YVal) :=
  [('A', .vbool true), ('B', .vbool true), ('C', .vbool false),
   ('D', .vfloat 30), ('E', .vint 2147483648), ('F', .vint 7)]

/-- C10 witness: the payload with E = 2147483648 fails to parse. -/
theorem C10_i32_range_witness :
    Input.from_str bigEFields = none :=
  C10_i32_range.1 bigEFields 2147483648 (Or.inl rfl) (Or.inr (by norm_num))

/-- The process-lifetime state of the rule engine: the HVALMAP OnceCell,
either still empty or holding a table map. -/
structure EngineState where
  hvalmap : Option (Substitution → Option (List (HValue × Triple)))

/-- The get_or_init call of get_h_value: return the stored map and leave
the state unchanged, or build hvalMapBuilt and store it when the cell is
still empty; this is the only write the engine ever performs. -/
def cellGetOrInit (st : EngineState) :
    (Substitution → Option (List (HValue × Triple))) × EngineState :=
  match st.hvalmap with
  | some m => (m, st)
  | none => (hvalMapBuilt, ⟨some hvalMapBuilt⟩)

/-- State-passing version of get_h_value, threading the OnceCell state. -/
def stepHValue (st : EngineState) (s : Substitution) (i : Input) :
    Option HValue × EngineState :=
  let p := cellGetOrInit st
  (match (p.1 s).or (p.1 .Base) with
   | none => none
   | some entries => scanEntries entries i, p.2)

/-- State-passing version of get_output, threading the OnceCell state. -/
def stepOutput (st : EngineState) (s : Substitution) (i : Input) :
    Option Output × EngineState :=
  let p := stepHValue st s i
  (match p.1 with
   | none => none
   | some h => some { h := h, k := s.get_k_value i h }, p.2)

/-- C9: evaluation is deterministic and pure: from every reachable engine
state (the cell still empty, or already holding the built table map), the
state-passing evaluation returns exactly the pure get_output result and
leaves the cell holding the built map. Hence repeated calls with identical
(variant, input) yield identical results regardless of how many evaluations
ran before, the table data is written at most once, and after that write
the state never changes again. -/
theorem C9_evaluate_deterministic (st : EngineState)
    (hreach : st = ⟨none⟩ ∨ st = ⟨some hvalMapBuilt⟩)
    (s : Substitution) (i : Input) :
    (stepOutput st s i).1 = s.get_output i ∧
    (stepOutput st s i).2 = ⟨some hvalMapBuilt⟩ := by
  rcases hreach with rfl | rfl <;> exact ⟨rfl, rfl⟩

/-- C9 witness: starting from the empty cell, evaluating Base on the
record (true, true, false, 30, 10, 7) returns the pure result and fills
the cell with the built map. -/
theorem C9_evaluate_deterministic_witness :
    (stepOutput ⟨none⟩ .Base ⟨true, true, false, 30, 10, 7⟩).1 =
      Substitution.Base.get_output ⟨true, true, false, 30, 10, 7⟩ ∧
    (stepOutput ⟨none⟩ .Base ⟨true, true, false, 30, 10, 7⟩).2 = ⟨some hvalMapBuilt⟩ :=
  C9_evaluate_deterministic ⟨none⟩ (Or.inl rfl) .Base ⟨true, true, false, 30, 10, 7⟩

/-- A successful scan finds exactly the entry carrying the input triple,
provided the expected triples of the table are pairwise distinct (as they
are in all the tables this program builds). -/
theorem scanEntries_eq_some_iff (l : List (HValue × Triple)) (i : Input) (h : HValue)
    (hl : l.Pairwise fun p q => p.2 ≠ q.2) :
    scanEntries l i = some h ↔ (h, (i.a, i.b, i.c)) ∈ l := by
  induction l with
  | nil => simp [scanEntries]
  | cons p rest ih =>
    obtain ⟨ph, pt⟩ := p
    rw [List.pairwise_cons] at hl
    obtain ⟨hph, hprest⟩ := hl
    by_cases hm : pt = (i.a, i.b, i.c)
    · subst hm
      have hscan : scanEntries ((ph, (i.a, i.b, i.c)) :: rest) i = some ph := by
        simp [scanEntries]
      rw [hscan]
      constructor
      · intro h1
        have he : ph = h := Option.some.inj h1
        subst he
        exact List.mem_cons_self _ _
      · intro hmem
        rcases List.mem_cons.mp hmem with heq | hmem2
        · injection heq with e1 e2
          subst e1
          rfl
        · exact absurd rfl (hph (h, (i.a, i.b, i.c)) hmem2)
    · simp only [scanEntries]
      rw [if_neg hm, ih hprest]
      simp only [List.mem_cons]
      constructor
      · exact Or.inr
      · rintro (heq | hmem)
        · cases heq
          exact absurd rfl hm
        · exact hmem

/-- A failing scan means no entry of the table carries the input triple. -/
theorem scanEntries_eq_none_iff (l : List (HValue × Triple)) (i : Input) :
    scanEntries l i = none ↔ ∀ p ∈ l, p.2 ≠ (i.a, i.b, i.c) := by
  induction l with
  | nil => simp [scanEntries]
  | cons p rest ih =>
    obtain ⟨ph, pt⟩ := p
    by_cases hm : pt = (i.a, i.b, i.c)
    · subst hm
      simp [scanEntries]
    · simp [scanEntries, hm, ih]

/-- The scan result is invariant under any reordering of a table whose
expected triples are pairwise distinct. -/
theorem scanEntries_perm (l1 l2 : List (HValue × Triple))
    (hp : l1.Perm l2) (hl : l1.Pairwise fun p q => p.2 ≠ q.2) (i : Input) :
    scanEntries l1 i = scanEntries l2 i := by
  have hl2 : l2.Pairwise fun p q => p.2 ≠ q.2 := (hp.pairwise_iff Ne.symm).mp hl
  cases h1 : scanEntries l1 i with
  | none =>
    symm
    rw [scanEntries_eq_none_iff] at h1 ⊢
    intro p hpmem
    exact h1 p (hp.mem_iff.mpr hpmem)
  | some h =>
    symm
    rw [scanEntries_eq_some_iff l2 i h hl2]
    exact hp.subset ((scanEntries_eq_some_iff l1 i h hl).mp h1)

/-- The Base table maps its three categories to pairwise distinct triples. -/
theorem baseEntries_pairwise : baseEntries.Pairwise fun p q => p.2 ≠ q.2 := by
  simp [baseEntries, List.pairwise_cons]

/-- The Custom2 table maps its three categories to pairwise distinct
triples. -/
theorem custom2Entries_pairwise : custom2Entries.Pairwise fun p q => p.2 ≠ q.2 := by
  simp [custom2Entries, List.pairwise_cons]

/-- The classification result does not depend on the order in which the
entries of the built tables are scanned: any reordering of the table the
fallback lookup selects yields the same result as get_h_value. This is the
observational content behind the unspecified iteration order of the Rust
HashMap holding the tables. -/
theorem get_h_value_order_irrelevant (i : Input) (l1 l2 : List (HValue × Triple))
    (h1 : l1.Perm baseEntries) (h2 : l2.Perm custom2Entries) :
    scanEntries l1 i = Substitution.Base.get_h_value i ∧
    scanEntries l1 i = Substitution.Custom1.get_h_value i ∧
    scanEntries l2 i = Substitution.Custom2.get_h_value i := by
  have pw1 : l1.Pairwise fun p q => p.2 ≠ q.2 :=
    (h1.pairwise_iff Ne.symm).mpr baseEntries_pairwise
  have pw2 : l2.Pairwise fun p q => p.2 ≠ q.2 :=
    (h2.pairwise_iff Ne.symm).mpr custom2Entries_pairwise
  exact ⟨scanEntries_perm l1 baseEntries h1 pw1 i,
    scanEntries_perm l1 baseEntries h1 pw1 i,
    scanEntries_perm l2 custom2Entries h2 pw2 i⟩

end Assignment
